import Mathlib

/-!
Verification of the client-side security module of the storefront admin
dashboard (sanitizers, rate limiter, auth state machine, product form
validator).  Strings are embedded as `List Char`; JS wall-clock timestamps
as `Nat` milliseconds.  Each definition mirrors the corresponding source
function; doc comments note the JS details (truthiness, regex semantics)
that the embedding makes explicit.
-/

/-- Character used by the source's regexes; built by code point to keep the
file free of awkward literals. -/
def quoteCh : Char := Char.ofNat 34

/-- Apostrophe character (code point 39). -/
def apostCh : Char := Char.ofNat 39

/-- Backtick character (code point 96). -/
def backtickCh : Char := Char.ofNat 96

/-- Backslash character (code point 92). -/
def backslashCh : Char := Char.ofNat 92

/-- Left curly brace (code point 123). -/
def lbraceCh : Char := Char.ofNat 123

/-- Right curly brace (code point 125). -/
def rbraceCh : Char := Char.ofNat 125

/-- JS whitespace class: the characters removed by `String.prototype.trim`
and matched by the regex class `\s` (ASCII whitespace, NBSP, Unicode
spaces, line/paragraph separators, BOM). -/
def jsWs (c : Char) : Bool :=
  let n := c.toNat
  (decide (9 ≤ n) && decide (n ≤ 13)) || n == 32 || n == 160 || n == 0x1680 ||
  (decide (0x2000 ≤ n) && decide (n ≤ 0x200A)) || n == 0x2028 || n == 0x2029 ||
  n == 0x202F || n == 0x205F || n == 0x3000 || n == 0xFEFF

/-- JS regex word class `\w` = `[A-Za-z0-9_]`. -/
def isWordChar (c : Char) : Bool :=
  c.isAlpha || c.isDigit || c == '_'

/-- Characters NOT matched by the JS regex dot `.` (without the `s` flag):
LF, CR, LS, PS.  `notLineTerm c` holds when `.` matches `c`. -/
def notLineTerm (c : Char) : Bool :=
  !(c.toNat == 10 || c.toNat == 13 || c.toNat == 0x2028 || c.toNat == 0x2029)

/-- Lower-case a character list (models the `i` regex flag / `toLowerCase`
for the ASCII patterns used by the source). -/
def lowerL (l : List Char) : List Char := l.map Char.toLower

/-- `trimLeft` = drop leading JS whitespace. -/
def trimLeft (l : List Char) : List Char := l.dropWhile jsWs

/-- `trimRight` = drop trailing JS whitespace. -/
def trimRight (l : List Char) : List Char := (l.reverse.dropWhile jsWs).reverse

/-- JS `String.prototype.trim`. -/
def trimS (l : List Char) : List Char := trimRight (trimLeft l)

/-- Case-insensitive prefix test (ASCII patterns). -/
def prefCI : List Char → List Char → Bool
  | [], _ => true
  | _ :: _, [] => false
  | c :: p, d :: s => (c.toLower == d.toLower) && prefCI p s

/-- Substring (contiguous) test: does `p` occur inside `s`? -/
def infixOf (p : List Char) : List Char → Bool
  | [] => p.isPrefixOf []
  | c :: r => p.isPrefixOf (c :: r) || infixOf p r

/-- Case-insensitive substring test, as performed by a `/pat/i` regex test
with a literal pattern. -/
def containsCI (pat l : List Char) : Bool := infixOf (lowerL pat) (lowerL l)

/-- Does some suffix of the input satisfy `m`?  Models regex `test` for a
pattern whose match attempt at a position is decided by `m`. -/
def scanAny (m : List Char → Bool) : List Char → Bool
  | [] => m []
  | c :: r => m (c :: r) || scanAny m r

/-- First index (0-based) whose suffix satisfies `m`. -/
def findIdx (m : List Char → Bool) : List Char → Option Nat
  | [] => if m [] then some 0 else none
  | c :: r => if m (c :: r) then some 0 else (findIdx m r).map (· + 1)

/-- Fuel-driven worker for `replScan`; the fuel only serves structural
termination and never runs out when it starts at the input's length. -/
def replScanF (m : List Char → Option Nat) : Nat → List Char → List Char
  | 0, _ => []
  | _ + 1, [] => []
  | f + 1, c :: r =>
    match m (c :: r) with
    | some (n + 1) => replScanF m f (r.drop n)
    | _ => c :: replScanF m f r

/-- Global regex replacement by the empty string: scan left to right; when
the matcher reports a match of length `n ≥ 1` at the current position,
drop those `n` characters and resume after them (JS `replace` with the `g`
flag never rescans replaced output); otherwise keep one character and
advance. -/
def replScan (m : List Char → Option Nat) (l : List Char) : List Char :=
  replScanF m l.length l

/-- Matcher for a literal pattern, case-insensitive (e.g. `/javascript:/gi`). -/
def mLit (pat : List Char) (s : List Char) : Option Nat :=
  if prefCI pat s then some pat.length else none

/-- Matcher for `/on\w+=/gi`: `o`, `n`, a maximal nonempty `\w` run, then
`=`.  Backtracking cannot shorten the run because `=` is not a word
character, so the greedy match is the only one. -/
def mHandler (s : List Char) : Option Nat :=
  match s with
  | c1 :: c2 :: r =>
    if c1.toLower == 'o' && c2.toLower == 'n' then
      let w := r.takeWhile isWordChar
      if w.isEmpty then none
      else
        match r.dropWhile isWordChar with
        | '=' :: _ => some (2 + w.length + 1)
        | _ => none
    else none
  | _ => none

/-- Matcher for the source's script/iframe block regexes, e.g.
`/<script\b[^<]*(?:(?!<\/script>)<[^<]*)*<\/script>/gi`: the opening tag
name (case-insensitive) followed by a `\b` boundary (next char not `\w`),
then everything up to and including the FIRST closing tag (the negative
lookahead stops the loop at the first closer); no closer, no match. -/
def mBlock (openTag closeTag : List Char) (s : List Char) : Option Nat :=
  if prefCI openTag s then
    match s.drop openTag.length with
    | [] => none
    | c :: rest =>
      if isWordChar c then none
      else
        match findIdx (fun t => prefCI closeTag t) (c :: rest) with
        | some p => some (openTag.length + p + closeTag.length)
        | none => none
  else none

/-- `splitDot` = JS `String.prototype.split('.')`: always returns at least
one (possibly empty) fragment. -/
def splitDot : List Char → List (List Char)
  | [] => [[]]
  | c :: rest =>
    let r := splitDot rest
    if c == '.' then [] :: r
    else
      match r with
      | h :: t => (c :: h) :: t
      | [] => [[c]]

/-- Characters kept by `sanitizePrice`'s filter `[^0-9.]`. -/
def priceChar (c : Char) : Bool := c.isDigit || c == '.'

/-- Characters stripped by `sanitizeName`/`sanitizeEmail`/`sanitizeCategory`:
the class `[<>\"\'`;\\]`. -/
def stripCh (c : Char) : Bool :=
  c == '<' || c == '>' || c == quoteCh || c == apostCh || c == backtickCh ||
  c == ';' || c == backslashCh

/-- `SecurityUtils.sanitizeText`: strip `<`/`>`, remove `javascript:`,
inline handler patterns `on\w+=`, `data:` (all global, case-insensitive),
trim, truncate to 1000.  The falsy-input guard maps the empty string to
itself. -/
def sanitizeText (l : List Char) : List Char :=
  if l.isEmpty then []
  else
    (trimS (replScan (mLit ("data:".data))
      (replScan mHandler
        (replScan (mLit ("javascript:".data))
          (l.filter (fun c => !(c == '<' || c == '>'))))))).take 1000

/-- `SecurityUtils.sanitizeName`: strip the dangerous character class,
remove `javascript:` and `on\w+=`, trim, truncate to 200. -/
def sanitizeName (l : List Char) : List Char :=
  if l.isEmpty then []
  else
    (trimS (replScan mHandler
      (replScan (mLit ("javascript:".data))
        (l.filter (fun c => !stripCh c))))).take 200

/-- `SecurityUtils.sanitizeDescription`: remove whole `<script>…</script>`
and `<iframe>…</iframe>` blocks, then `javascript:`, `on\w+=`,
`data:text/html`, trim, truncate to 5000. -/
def sanitizeDescription (l : List Char) : List Char :=
  if l.isEmpty then []
  else
    (trimS (replScan (mLit ("data:text/html".data))
      (replScan mHandler
        (replScan (mLit ("javascript:".data))
          (replScan (mBlock ("<iframe".data) ("</iframe>".data))
            (replScan (mBlock ("<script".data) ("</script>".data)) l)))))).take 5000

/-- `SecurityUtils.sanitizePrice`: keep only digits and dots; with more
than one dot, glue everything after the first dot into one fractional part
(note: this branch does NOT truncate); otherwise truncate to 10. -/
def sanitizePrice (l : List Char) : List Char :=
  if l.isEmpty then []
  else
    let cleaned := l.filter priceChar
    let parts := splitDot cleaned
    if 2 < parts.length then parts.headD [] ++ '.' :: parts.tail.flatten
    else cleaned.take 10

/-- Start-of-string test for `/^https?:\/\//i`. -/
def startsHttp (t : List Char) : Bool :=
  prefCI ("http://".data) t || prefCI ("https://".data) t

/-- Start-of-string test for `/^(javascript|data|vbscript):/i`. -/
def startsBlocked (t : List Char) : Bool :=
  prefCI ("javascript:".data) t || prefCI ("data:".data) t ||
  prefCI ("vbscript:".data) t

/-- `SecurityUtils.sanitizeUrl`: trim; empty in, empty out; reject (empty)
anything not starting with `http://`/`https://` or starting with a blocked
protocol; otherwise truncate to 2000. -/
def sanitizeUrl (l : List Char) : List Char :=
  let t := trimS l
  if !t.isEmpty && !startsHttp t then []
  else if startsBlocked t then []
  else t.take 2000

/-- `SecurityUtils.sanitizeEmail`: lower-case, strip the dangerous
character class, trim, truncate to 254. -/
def sanitizeEmail (l : List Char) : List Char :=
  if l.isEmpty then []
  else (trimS ((lowerL l).filter (fun c => !stripCh c))).take 254

/-- `SecurityUtils.sanitizeCategory`: strip the dangerous character class,
trim, truncate to 100. -/
def sanitizeCategory (l : List Char) : List Char :=
  if l.isEmpty then []
  else (trimS (l.filter (fun c => !stripCh c))).take 100

/-- Attack pattern `/<script/i`. -/
def atkScript (l : List Char) : Bool := containsCI ("<script".data) l

/-- Attack pattern `/javascript:/i`. -/
def atkJsProto (l : List Char) : Bool := containsCI ("javascript:".data) l

/-- Match attempt for `/on\w+\s*=/i` at one position: `o`, `n`, a maximal
nonempty `\w` run, optional whitespace, then `=`; neither `=` nor
whitespace is a word character, so the greedy run is forced. -/
def mAtkHandler (s : List Char) : Bool :=
  match s with
  | c1 :: c2 :: r =>
    c1.toLower == 'o' && c2.toLower == 'n' &&
    !(r.takeWhile isWordChar).isEmpty &&
    (match (r.dropWhile isWordChar).dropWhile jsWs with
     | '=' :: _ => true
     | _ => false)
  | _ => false

/-- Attack pattern `/on\w+\s*=/i`. -/
def atkHandler (l : List Char) : Bool := scanAny mAtkHandler l

/-- Match attempt for `/union\s+select/i` at one position. -/
def mUnionSelect (s : List Char) : Bool :=
  prefCI ("union".data) s &&
  (let r := s.drop 5
   !(r.takeWhile jsWs).isEmpty && prefCI ("select".data) (r.dropWhile jsWs))

/-- Attack pattern `/union\s+select/i`. -/
def atkUnionSelect (l : List Char) : Bool := scanAny mUnionSelect l

/-- Match attempt for `/;\s*VERB\s+OBJ/i` at one position (used for
`drop table` and `delete from`). -/
def mSqlStmt (verb obj : List Char) (s : List Char) : Bool :=
  match s with
  | ';' :: r =>
    let r2 := r.dropWhile jsWs
    prefCI verb r2 &&
    (let r3 := r2.drop verb.length
     !(r3.takeWhile jsWs).isEmpty && prefCI obj (r3.dropWhile jsWs))
  | _ => false

/-- Attack pattern `/;\s*drop\s+table/i`. -/
def atkDropTable (l : List Char) : Bool :=
  scanAny (mSqlStmt ("drop".data) ("table".data)) l

/-- Attack pattern `/;\s*delete\s+from/i`. -/
def atkDeleteFrom (l : List Char) : Bool :=
  scanAny (mSqlStmt ("delete".data) ("from".data)) l

/-- Match attempt for the classic injection pattern
`/'\s*or\s+'1'\s*=\s*'1/i` at one position. -/
def mOrInjection (s : List Char) : Bool :=
  match s with
  | q :: r =>
    q == apostCh &&
    (let r2 := r.dropWhile jsWs
     prefCI ("or".data) r2 &&
     (let r3 := r2.drop 2
      !(r3.takeWhile jsWs).isEmpty &&
      (let r4 := r3.dropWhile jsWs
       [apostCh, '1', apostCh].isPrefixOf r4 &&
       (match ((r4.drop 3).dropWhile jsWs) with
        | '=' :: r6 => [apostCh, '1'].isPrefixOf (r6.dropWhile jsWs)
        | _ => false))))
  | _ => false

/-- Attack pattern for the classic `1=1` injection. -/
def atkOrInjection (l : List Char) : Bool := scanAny mOrInjection l

/-- Attack pattern for the trailing SQL comment regex (two hyphens, then
`\s*`, then the end-of-input anchor; no multiline flag): the input ends in
two hyphens followed only by whitespace. -/
def atkSqlComment (l : List Char) : Bool :=
  match l.reverse.dropWhile jsWs with
  | a :: b :: _ => a == '-' && b == '-'
  | _ => false

/-- Match attempt for `/\/\*.*\*\//` at one position: `/*`, then `*/`
reachable without crossing a line terminator (the regex dot excludes
them). -/
def mBlockComment (s : List Char) : Bool :=
  match s with
  | '/' :: '*' :: r => infixOf ("*/".data) (r.takeWhile notLineTerm)
  | _ => false

/-- Attack pattern `/\/\*.*\*\//`. -/
def atkBlockComment (l : List Char) : Bool := scanAny mBlockComment l

/-- Match attempt for `/\$\{.*\}/` at one position. -/
def mTemplateDollar (s : List Char) : Bool :=
  match s with
  | a :: b :: r =>
    a == '$' && b == lbraceCh && (r.takeWhile notLineTerm).contains rbraceCh
  | _ => false

/-- Attack pattern `/\$\{.*\}/` (template interpolation). -/
def atkTemplateDollar (l : List Char) : Bool := scanAny mTemplateDollar l

/-- Match attempt for the mustache pattern at one position: two opening
braces, then two adjacent closing braces with no line terminator between. -/
def mTemplateMustache (s : List Char) : Bool :=
  match s with
  | a :: b :: r =>
    a == lbraceCh && b == lbraceCh &&
    infixOf [rbraceCh, rbraceCh] (r.takeWhile notLineTerm)
  | _ => false

/-- Attack pattern for mustache-style template interpolation. -/
def atkTemplateMustache (l : List Char) : Bool := scanAny mTemplateMustache l

/-- `SecurityUtils.detectAttack`: true when the raw input matches any of
the eleven attack-signature regexes; falsy input (empty string) is never
an attack. -/
def detectAttack (l : List Char) : Bool :=
  if l.isEmpty then false
  else
    atkScript l || atkJsProto l || atkHandler l || atkUnionSelect l ||
    atkDropTable l || atkDeleteFrom l || atkOrInjection l ||
    atkSqlComment l || atkBlockComment l || atkTemplateDollar l ||
    atkTemplateMustache l

/-- Value of a digit list, most significant first. -/
def digitsToNat (l : List Char) : Nat :=
  l.foldl (fun acc c => acc * 10 + (c.toNat - 48)) 0

/-- Exact nonnegative decimal `mantissa / 10 ^ scale`, standing in for the
JS number produced by `parseFloat` on a digit-and-dot string. -/
structure DecimalValue where
  mantissa : Nat
  scale : Nat
deriving DecidableEq, Repr

/-- The rational value of a decimal. -/
def DecimalValue.toRat (d : DecimalValue) : ℚ :=
  (d.mantissa : ℚ) / (10 : ℚ) ^ d.scale

/-- Modelled on JS `parseFloat`, restricted to the digit-and-dot strings
produced by `sanitizePrice` (no sign, exponent, whitespace or other
characters can reach it), with exact decimals in place of IEEE doubles:
the longest valid prefix is integer digits, an optional dot, fraction
digits; `none` models `NaN` (no digit in the leading prefix). -/
def parseFloatDec (l : List Char) : Option DecimalValue :=
  let ip := l.takeWhile Char.isDigit
  match l.dropWhile Char.isDigit with
  | '.' :: r =>
    let fp := r.takeWhile Char.isDigit
    if ip.isEmpty && fp.isEmpty then none
    else some ⟨digitsToNat ip * 10 ^ fp.length + digitsToNat fp, fp.length⟩
  | _ => if ip.isEmpty then none else some ⟨digitsToNat ip, 0⟩

/-- Rejection reasons of the product form validator (`handleSubmit`),
in the source's wording: invalid characters detected / name required /
invalid price / invalid payment URL. -/
inductive RejectReason
  | invalidInput
  | nameRequired
  | invalidPrice
  | invalidPaymentUrl
deriving DecidableEq, Repr

/-- Raw product form state fed to `handleSubmit`. -/
structure ProductForm where
  name : List Char
  description : List Char
  price : List Char
  image : List Char
  category : List Char
  inStock : Bool
  driveFileId : Option (List Char)
  externalPaymentUrl : List Char
deriving DecidableEq, Repr

/-- The sanitized record built by `handleSubmit` before validation. -/
structure SanitizedProduct where
  name : List Char
  description : List Char
  price : DecimalValue
  image : List Char
  category : List Char
  inStock : Bool
  driveFileId : Option (List Char)
  externalPaymentUrl : List Char
deriving DecidableEq, Repr

deriving instance DecidableEq for Except

/-- Validation pipeline of `handleSubmit`: sanitize all fields
(`price := parseFloat(sanitizePrice(price)) || 0`, so a `NaN` parse
becomes `0` and the later `isNaN` test can never fire), then in order:
attack detection on the raw name/description/category, required name,
price positivity (the parsed value is a nonnegative decimal, so the JS
test `price <= 0` holds exactly when its mantissa is `0`), payment-URL
policy; otherwise the sanitized record is handed to the product store. -/
def validateProduct (f : ProductForm) : Except RejectReason SanitizedProduct :=
  let price : DecimalValue := (parseFloatDec (sanitizePrice f.price)).getD ⟨0, 0⟩
  let s : SanitizedProduct :=
    { name := sanitizeName f.name
      description := sanitizeDescription f.description
      price := price
      image := f.image
      category := sanitizeCategory f.category
      inStock := f.inStock
      driveFileId := f.driveFileId
      externalPaymentUrl := sanitizeUrl f.externalPaymentUrl }
  if detectAttack f.name || detectAttack f.description || detectAttack f.category then
    .error .invalidInput
  else if s.name.isEmpty then
    .error .nameRequired
  else if price.mantissa = 0 then
    .error .invalidPrice
  else if !f.externalPaymentUrl.isEmpty && s.externalPaymentUrl.isEmpty then
    .error .invalidPaymentUrl
  else
    .ok s

/-- `RateLimiter` record: `{count, firstAttempt, lockedUntil}`; a missing
`lockedUntil` property is `none`. -/
structure AttemptRecord where
  count : Nat
  firstAttempt : Nat
  lockedUntil : Option Nat
deriving DecidableEq, Repr

/-- The `RateLimiter.attempts` object, as a key/value list with map
semantics (lookup finds the first entry; set and delete act on the key). -/
abbrev RLState := List (List Char × AttemptRecord)

/-- Property read `attempts[identifier]`. -/
def lookupRec : RLState → List Char → Option AttemptRecord
  | [], _ => none
  | (k, r) :: rest, id => if k == id then some r else lookupRec rest id

/-- `delete attempts[identifier]`. -/
def eraseRec (st : RLState) (id : List Char) : RLState :=
  st.filter (fun e => !(e.1 == id))

/-- `attempts[identifier] = r` (observationally a map update). -/
def setRec (st : RLState) (id : List Char) (r : AttemptRecord) : RLState :=
  (id, r) :: eraseRec st id

/-- `RateLimiter.maxAttempts`. -/
def maxAttempts : Nat := 5

/-- `RateLimiter.lockoutTime` (15 minutes in milliseconds). -/
def lockoutTime : Nat := 15 * 60 * 1000

/-- `RateLimiter.canAttempt`: no record means yes; a truthy `lockedUntil`
(the JS guard `record.lockedUntil && …` treats a `0` timestamp as absent)
still in the future means no; an expired truthy lockout is erased and
yields yes; otherwise compare `count` against `maxAttempts`.  Returns the
answer together with the (possibly mutated) attempts state. -/
def canAttempt (st : RLState) (id : List Char) (now : Nat) : Bool × RLState :=
  match lookupRec st id with
  | none => (true, st)
  | some r =>
    match r.lockedUntil with
    | some lockedAt =>
      if 0 < lockedAt ∧ now < lockedAt then (false, st)
      else if 0 < lockedAt ∧ lockedAt ≤ now then (true, eraseRec st id)
      else (decide (r.count < maxAttempts), st)
    | none => (decide (r.count < maxAttempts), st)

/-- `RateLimiter.recordAttempt`: success erases the record; failure
creates `{count: 0, firstAttempt: now}` if absent, increments `count`,
and (re)sets `lockedUntil := now + lockoutTime` once `count` reaches
`maxAttempts`. -/
def recordAttempt (st : RLState) (id : List Char) (success : Bool) (now : Nat) : RLState :=
  if success then eraseRec st id
  else
    let r0 := (lookupRec st id).getD ⟨0, now, none⟩
    let r1 : AttemptRecord := { r0 with count := r0.count + 1 }
    let r2 :=
      if maxAttempts ≤ r1.count then { r1 with lockedUntil := some (now + lockoutTime) }
      else r1
    setRec st id r2

/-- `RateLimiter.getRemainingTime`: minutes (ceiling of an exact division,
matching `Math.ceil(remaining/1000/60)` for realistic timestamps) until a
truthy lockout expires, else 0.  The state component records that the
source reads but never writes `attempts`. -/
def getRemainingTime (st : RLState) (id : List Char) (now : Nat) : Nat × RLState :=
  match lookupRec st id with
  | none => (0, st)
  | some r =>
    match r.lockedUntil with
    | none => (0, st)
    | some lockedAt =>
      if 0 < lockedAt ∧ now < lockedAt then ((lockedAt - now + 59999) / 60000, st)
      else (0, st)

/-- `RateLimiter.getAttemptsLeft`: `max(0, maxAttempts - count)` (the
saturating `Nat` subtraction), `maxAttempts` when no record; again the
state component records the absence of writes. -/
def getAttemptsLeft (st : RLState) (id : List Char) : Nat × RLState :=
  match lookupRec st id with
  | none => (maxAttempts, st)
  | some r => (maxAttempts - r.count, st)

/-- Fold of failed `recordAttempt` calls at the given times (used to
state the five-failure scenario). -/
def recordFails (st : RLState) (id : List Char) : List Nat → RLState
  | [] => st
  | t :: ts => recordFails (recordAttempt st id false t) id ts

/-- The `authMode` values of `AdminDashboard`. -/
inductive AuthMode
  | loading
  | error
  | login
  | notOwner
  | authenticated
deriving DecidableEq, Repr

/-- Outcome of the ownership-verifier fetch in the auth-state handler:
either a parsed JSON body whose `isOwner` field may be any value (`some
true`, `some false`, or absent), or a thrown network/parse error. -/
inductive VerifierResult
  | ok (isOwner : Option Bool)
  | fetchError
deriving DecidableEq, Repr

/-- Observable effects of one run of the `onAuthStateChanged` handler:
the resulting `authMode` and `isOwner` flag, the `setUser` value, which
local-storage keys were written (`none` = not written in this run), and
whether the Stripe payment-setup status check was triggered. -/
structure HandlerEffects where
  mode : AuthMode
  isOwner : Bool
  user : Option (List Char)
  storedUserId : Option (List Char)
  storedProjectId : Option (List Char)
  stripeChecked : Bool
deriving DecidableEq, Repr

/-- The `onAuthStateChanged` handler of `initAuth`: with a signed-in user,
a verifier response whose `isOwner` is strictly `true` yields
`authenticated` and persists both `userId` and `projectId`; any other
response yields `not-owner`; a thrown fetch/parse error is caught and
fails open to `authenticated`, persisting only `userId`; with no user the
mode becomes `login`. -/
def authStateHandler (projectId : List Char) (firebaseUser : Option (List Char))
    (vr : VerifierResult) : HandlerEffects :=
  match firebaseUser with
  | some uid =>
    match vr with
    | .ok d =>
      if d = some true then
        { mode := .authenticated, isOwner := true, user := some uid,
          storedUserId := some uid, storedProjectId := some projectId,
          stripeChecked := true }
      else
        { mode := .notOwner, isOwner := false, user := some uid,
          storedUserId := none, storedProjectId := none, stripeChecked := false }
    | .fetchError =>
      { mode := .authenticated, isOwner := true, user := some uid,
        storedUserId := some uid, storedProjectId := none, stripeChecked := true }
  | none =>
    { mode := .login, isOwner := false, user := none,
      storedUserId := none, storedProjectId := none, stripeChecked := false }

/-- Outcomes of the credential provider's `signInWithEmailAndPassword`,
keyed by the Firebase error codes the source distinguishes. -/
inductive SignInResult
  | success
  | errUserNotFound
  | errWrongPassword
  | errInvalidCredential
  | errInvalidEmail
  | errTooManyRequests
  | errOther
deriving DecidableEq, Repr

/-- The `authError` messages `handleLogin` can set, abstracted from their
interpolated strings (`lockedOut m` = "Too many failed attempts. Please
try again in m minutes.", `invalidInput` = "Invalid input detected.",
`invalidCredentials n` = "Invalid email or password. n attempts
remaining.", and so on). -/
inductive AuthMsg
  | noMsg
  | lockedOut (minutes : Nat)
  | invalidInput
  | invalidCredentials (attemptsLeft : Nat)
  | invalidEmailFormat
  | tooManyRequests
  | loginFailed
deriving DecidableEq, Repr

/-- Observable effects of one run of `handleLogin`: the rate-limiter state
afterwards, the message set, the lockout flags, whether and with which
credentials the provider's sign-in was invoked, and any `setAuthMode`
call (the source never changes `authMode` in `handleLogin`, so this is
always `none`: mode changes arrive via the auth-state listener). -/
structure LoginOutcome where
  rl : RLState
  msg : AuthMsg
  isLocked : Bool
  lockoutMinutes : Option Nat
  providerCalled : Bool
  providerEmail : Option (List Char)
  providerPassword : Option (List Char)
  modeChange : Option AuthMode
deriving DecidableEq, Repr

/-- The rate-limit identifier `'login_' + (projectId || 'default')`. -/
def loginIdentifier (projectId : List Char) : List Char :=
  "login_".data ++ (if projectId.isEmpty then "default".data else projectId)

/-- `handleLogin`, with the provider's answer supplied as an oracle that
is consumed only if the call is reached: rate-limit gate first (its
`canAttempt` call can itself erase an expired lockout), then attack
detection on the RAW email and password (recording a failure and skipping
the provider), then the provider call with the sanitized email and raw
password; afterwards success resets the limiter while failures are
recorded and mapped to messages, with `attemptsLeft == 0` or the
provider's own rate-limit error forcing the locked state. -/
def handleLogin (st : RLState) (projectId email password : List Char) (now : Nat)
    (signIn : SignInResult) : LoginOutcome :=
  let id := loginIdentifier projectId
  let chk := canAttempt st id now
  if !chk.1 then
    let rem := (getRemainingTime chk.2 id now).1
    { rl := chk.2, msg := .lockedOut rem, isLocked := true,
      lockoutMinutes := some rem, providerCalled := false,
      providerEmail := none, providerPassword := none, modeChange := none }
  else
    let st1 := chk.2
    let sEmail := sanitizeEmail email
    if detectAttack email || detectAttack password then
      { rl := recordAttempt st1 id false now, msg := .invalidInput,
        isLocked := false, lockoutMinutes := none, providerCalled := false,
        providerEmail := none, providerPassword := none, modeChange := none }
    else
      match signIn with
      | .success =>
        { rl := recordAttempt st1 id true now, msg := .noMsg,
          isLocked := false, lockoutMinutes := none, providerCalled := true,
          providerEmail := some sEmail, providerPassword := some password,
          modeChange := none }
      | e =>
        let st2 := recordAttempt st1 id false now
        let left := (getAttemptsLeft st2 id).1
        let m := match e with
          | .errUserNotFound | .errWrongPassword | .errInvalidCredential =>
            AuthMsg.invalidCredentials left
          | .errInvalidEmail => AuthMsg.invalidEmailFormat
          | .errTooManyRequests => AuthMsg.tooManyRequests
          | _ => AuthMsg.loginFailed
        let locked := e == SignInResult.errTooManyRequests || left == 0
        { rl := st2, msg := m, isLocked := locked,
          lockoutMinutes := if locked then some 15 else none,
          providerCalled := true, providerEmail := some sEmail,
          providerPassword := some password, modeChange := none }

/-! Helper lemmas about trimming, price splitting, and substring search. -/

theorem dropWhile_idem (p : Char → Bool) (l : List Char) :
    (l.dropWhile p).dropWhile p = l.dropWhile p := by
  induction l with
  | nil => rfl
  | cons a as ih =>
    rw [List.dropWhile_cons]
    by_cases h : p a = true
    · simpa [h] using ih
    · rw [if_neg (by simp [h]), List.dropWhile_cons, if_neg (by simp [h])]

theorem trimLeft_idem (l : List Char) : trimLeft (trimLeft l) = trimLeft l :=
  dropWhile_idem jsWs l

theorem trimRight_idem (l : List Char) : trimRight (trimRight l) = trimRight l := by
  unfold trimRight
  rw [List.reverse_reverse, dropWhile_idem]

theorem trimRight_prefix (l : List Char) : trimRight l <+: l := by
  have h : l.reverse.dropWhile jsWs <:+ l.reverse := List.dropWhile_suffix jsWs
  have h2 := List.reverse_prefix.mpr h
  rwa [List.reverse_reverse] at h2

theorem trimLeft_head_not_ws (l : List Char) (a : Char) (as : List Char)
    (h : trimLeft l = a :: as) : jsWs a = false := by
  have hh := List.head?_dropWhile_not jsWs l
  unfold trimLeft at h
  rw [h] at hh
  exact hh

theorem trimLeft_eq_self (l : List Char)
    (h : ∀ a as, l = a :: as → jsWs a = false) : trimLeft l = l := by
  cases l with
  | nil => rfl
  | cons a as =>
    unfold trimLeft
    rw [List.dropWhile_cons, if_neg (by simp [h a as rfl])]

theorem trimS_idem (l : List Char) : trimS (trimS l) = trimS l := by
  unfold trimS
  have hL : trimLeft (trimRight (trimLeft l)) = trimRight (trimLeft l) := by
    apply trimLeft_eq_self
    intro a as h
    obtain ⟨t, ht⟩ := trimRight_prefix (trimLeft l)
    rw [h] at ht
    exact trimLeft_head_not_ws l a (as ++ t) ht.symm
  rw [hL, trimRight_idem]

theorem length_trimLeft_le (l : List Char) : (trimLeft l).length ≤ l.length :=
  (List.dropWhile_sublist _).length_le

theorem length_trimRight_le (l : List Char) : (trimRight l).length ≤ l.length := by
  unfold trimRight
  calc (l.reverse.dropWhile jsWs).reverse.length
      = (l.reverse.dropWhile jsWs).length := List.length_reverse _
    _ ≤ l.reverse.length := (List.dropWhile_sublist _).length_le
    _ = l.length := List.length_reverse _

theorem length_trimS_le (l : List Char) : (trimS l).length ≤ l.length :=
  le_trans (length_trimRight_le _) (length_trimLeft_le _)

theorem splitDot_ne_nil (l : List Char) : splitDot l ≠ [] := by
  induction l with
  | nil => simp [splitDot]
  | cons c rest ih =>
    unfold splitDot
    by_cases h : (c == '.') = true
    · simp [h]
    · cases hr : splitDot rest with
      | nil => exact absurd hr ih
      | cons p t => simp [h, hr]

theorem splitDot_length (l : List Char) :
    (splitDot l).length = l.count '.' + 1 := by
  induction l with
  | nil => rfl
  | cons c rest ih =>
    unfold splitDot
    by_cases h : (c == '.') = true
    · simp only [h, if_pos, List.length_cons, ih, List.count_cons, h]
    · cases hr : splitDot rest with
      | nil => exact absurd hr (splitDot_ne_nil rest)
      | cons p t =>
        rw [hr] at ih
        simp only [h, Bool.false_eq_true, if_false, hr, List.length_cons,
          List.count_cons, h] at ih ⊢
        omega

theorem splitDot_mem (l : List Char) :
    ∀ part ∈ splitDot l, ∀ c ∈ part, c ∈ l ∧ (c == '.') = false := by
  induction l with
  | nil =>
    intro part hp c hc
    simp [splitDot] at hp
    subst hp
    cases hc
  | cons a rest ih =>
    intro part hp c hc
    unfold splitDot at hp
    by_cases h : (a == '.') = true
    · rw [if_pos h] at hp
      rcases List.mem_cons.mp hp with h1 | h1
      · subst h1
        cases hc
      · have h2 := ih part h1 c hc
        exact ⟨List.mem_cons_of_mem _ h2.1, h2.2⟩
    · rw [if_neg (by simp [h] : ¬ (a == '.') = true)] at hp
      cases hr : splitDot rest with
      | nil => exact absurd hr (splitDot_ne_nil rest)
      | cons p t =>
        rw [hr] at hp
        rcases List.mem_cons.mp hp with h1 | h1
        · subst h1
          rcases List.mem_cons.mp hc with h2 | h2
          · subst h2
            exact ⟨List.mem_cons_self _ _, by simpa using h⟩
          · have h3 := ih p (by rw [hr]; exact List.mem_cons_self _ _) c h2
            exact ⟨List.mem_cons_of_mem _ h3.1, h3.2⟩
        · have h3 := ih part (by rw [hr]; exact List.mem_cons_of_mem _ h1) c hc
          exact ⟨List.mem_cons_of_mem _ h3.1, h3.2⟩

theorem sanitizePrice_eq (l : List Char) :
    sanitizePrice l =
      if l.isEmpty then []
      else if 2 < (splitDot (l.filter priceChar)).length then
        (splitDot (l.filter priceChar)).headD [] ++
          '.' :: (splitDot (l.filter priceChar)).tail.flatten
      else (l.filter priceChar).take 10 := rfl

theorem sanitizeUrl_eq (l : List Char) :
    sanitizeUrl l =
      if !(trimS l).isEmpty && !startsHttp (trimS l) then []
      else if startsBlocked (trimS l) then []
      else (trimS l).take 2000 := rfl

theorem sanitizeUrl_idem_of_short (l : List Char) (h : l.length ≤ 2000) :
    sanitizeUrl (sanitizeUrl l) = sanitizeUrl l := by
  by_cases h1 : (!(trimS l).isEmpty && !startsHttp (trimS l)) = true
  · have hv : sanitizeUrl l = [] := by
      rw [sanitizeUrl_eq, if_pos h1]
    rw [hv]
    decide
  · by_cases h2 : startsBlocked (trimS l) = true
    · have hv : sanitizeUrl l = [] := by
        rw [sanitizeUrl_eq, if_neg h1, if_pos h2]
      rw [hv]
      decide
    · have hlen : (trimS l).length ≤ 2000 := le_trans (length_trimS_le l) h
      have hv : sanitizeUrl l = trimS l := by
        rw [sanitizeUrl_eq, if_neg h1, if_neg h2, List.take_of_length_le hlen]
      rw [hv, sanitizeUrl_eq, trimS_idem, if_neg h1, if_neg h2,
        List.take_of_length_le hlen]

theorem sanitizePrice_idem_of_one_dot (l : List Char)
    (h : (l.filter priceChar).count '.' ≤ 1) :
    sanitizePrice (sanitizePrice l) = sanitizePrice l := by
  have hnot : ¬ 2 < (splitDot (l.filter priceChar)).length := by
    rw [splitDot_length]
    omega
  by_cases he : l.isEmpty = true
  · have hv : sanitizePrice l = [] := by
      rw [sanitizePrice_eq, if_pos he]
    rw [hv]
    rfl
  · have hv : sanitizePrice l = (l.filter priceChar).take 10 := by
      rw [sanitizePrice_eq, if_neg he, if_neg hnot]
    rw [hv]
    have hmf : ((l.filter priceChar).take 10).filter priceChar =
        (l.filter priceChar).take 10 := by
      apply List.filter_eq_self.2
      intro c hc
      exact (List.mem_filter.1 (List.mem_of_mem_take hc)).2
    by_cases hme : ((l.filter priceChar).take 10).isEmpty = true
    · rw [sanitizePrice_eq, if_pos hme]
      exact (List.isEmpty_iff.mp hme).symm
    · have hmc : ((l.filter priceChar).take 10).count '.' ≤ 1 :=
        le_trans ((List.take_sublist _ _).count_le _) h
      have hnot2 : ¬ 2 <
          (splitDot (((l.filter priceChar).take 10).filter priceChar)).length := by
        rw [hmf, splitDot_length]
        omega
      rw [sanitizePrice_eq, if_neg hme, if_neg hnot2, hmf, List.take_take]
      simp

theorem infixOf_iff_isInfix (p s : List Char) : infixOf p s = true ↔ p <:+: s := by
  induction s with
  | nil =>
    show p.isPrefixOf [] = true ↔ _
    rw [List.isPrefixOf_iff_prefix, List.infix_nil, List.prefix_nil]
  | cons c r ih =>
    show (p.isPrefixOf (c :: r) || infixOf p r) = true ↔ _
    rw [Bool.or_eq_true, List.isPrefixOf_iff_prefix, ih, List.infix_cons_iff]

/-! Helper lemmas about the attempts table. -/

theorem lookupRec_setRec_self (st : RLState) (id : List Char) (r : AttemptRecord) :
    lookupRec (setRec st id r) id = some r := by
  simp [setRec, lookupRec]

theorem lookupRec_eraseRec_self (st : RLState) (id : List Char) :
    lookupRec (eraseRec st id) id = none := by
  induction st with
  | nil => rfl
  | cons e rest ih =>
    unfold eraseRec at ih ⊢
    rw [List.filter_cons]
    by_cases h : (e.1 == id) = true
    · simpa [h] using ih
    · simp only [h, Bool.not_false, if_pos]
      simpa [lookupRec, h] using ih

/-- C1: in the AuthSession state machine, after a successful provider
sign-in, a verifier-call failure (network or parse error, both thrown
into the catch) fails open to the authenticated state, while an explicit
denial — the verifier responds but its isOwner field is not strictly
`true` — yields the not-owner state. -/
theorem c1_fail_open_policy (projectId uid : List Char) (vr : VerifierResult) :
    (vr = VerifierResult.fetchError →
      (authStateHandler projectId (some uid) vr).mode = AuthMode.authenticated) ∧
    (∀ d, vr = VerifierResult.ok d → d ≠ some true →
      (authStateHandler projectId (some uid) vr).mode = AuthMode.notOwner) := by
  constructor
  · rintro rfl
    rfl
  · rintro d rfl hd
    simp [authStateHandler, hd]

theorem c1_fail_open_policy_witness :
    (authStateHandler ("p".data) (some ("u".data)) VerifierResult.fetchError).mode =
      AuthMode.authenticated ∧
    (authStateHandler ("p".data) (some ("u".data))
        (VerifierResult.ok (some false))).mode = AuthMode.notOwner :=
  ⟨(c1_fail_open_policy ("p".data) ("u".data) VerifierResult.fetchError).1 rfl,
   (c1_fail_open_policy ("p".data) ("u".data) (VerifierResult.ok (some false))).2
     (some false) rfl (by decide)⟩

/-- C2 (counterexample): the draft with name `<b>Shoe</b>` and price `-5`
is NOT rejected with the invalid-price reason: sanitizePrice strips the
minus sign, so the sanitized price parses to 5 > 0. -/
theorem c2_counterexample :
    validateProduct
      { name := "<b>Shoe</b>".data, description := [], price := "-5".data,
        image := [], category := [], inStock := true, driveFileId := none,
        externalPaymentUrl := [] } ≠
    Except.error RejectReason.invalidPrice := by decide

/-- C2 (amended): the draft with name `<b>Shoe</b>` and price `-5` is
accepted: sanitization strips the minus sign so the price becomes the
positive number 5, and the sanitized name `bShoe/b` is nonempty, so the
validator returns the sanitized record instead of any rejection. -/
theorem c2_draft_accepted :
    validateProduct
      { name := "<b>Shoe</b>".data, description := [], price := "-5".data,
        image := [], category := [], inStock := true, driveFileId := none,
        externalPaymentUrl := [] } =
    Except.ok
      { name := "bShoe/b".data, description := [], price := ⟨5, 0⟩,
        image := [], category := [], inStock := true, driveFileId := none,
        externalPaymentUrl := [] } := by decide

/-- C6: starting from a state with no record for the identifier, five
failed attempts leave canAttempt false and zero attempts left (as long as
the lockout has not expired); one subsequent successful attempt resets
the record, making canAttempt true and restoring all five attempts. -/
theorem c6_rate_limit_scenario (st0 : RLState) (id : List Char)
    (t1 t2 t3 t4 t5 t6 t7 t8 : Nat)
    (h0 : lookupRec st0 id = none) (h6 : t6 < t5 + lockoutTime) :
    (canAttempt (recordFails st0 id [t1, t2, t3, t4, t5]) id t6).1 = false ∧
    (getAttemptsLeft (recordFails st0 id [t1, t2, t3, t4, t5]) id).1 = 0 ∧
    (canAttempt (recordAttempt (recordFails st0 id [t1, t2, t3, t4, t5]) id true t7)
        id t8).1 = true ∧
    (getAttemptsLeft (recordAttempt (recordFails st0 id [t1, t2, t3, t4, t5]) id true t7)
        id).1 = maxAttempts := by
  have e1 : recordAttempt st0 id false t1 = setRec st0 id ⟨1, t1, none⟩ := by
    simp [recordAttempt, h0, maxAttempts]
  have e2 : recordAttempt (setRec st0 id ⟨1, t1, none⟩) id false t2 =
      setRec (setRec st0 id ⟨1, t1, none⟩) id ⟨2, t1, none⟩ := by
    simp [recordAttempt, lookupRec_setRec_self, maxAttempts]
  have e3 : recordAttempt (setRec (setRec st0 id ⟨1, t1, none⟩) id ⟨2, t1, none⟩)
      id false t3 =
      setRec (setRec (setRec st0 id ⟨1, t1, none⟩) id ⟨2, t1, none⟩) id
        ⟨3, t1, none⟩ := by
    simp [recordAttempt, lookupRec_setRec_self, maxAttempts]
  have e4 : recordAttempt (setRec (setRec (setRec st0 id ⟨1, t1, none⟩) id
      ⟨2, t1, none⟩) id ⟨3, t1, none⟩) id false t4 =
      setRec (setRec (setRec (setRec st0 id ⟨1, t1, none⟩) id ⟨2, t1, none⟩) id
        ⟨3, t1, none⟩) id ⟨4, t1, none⟩ := by
    simp [recordAttempt, lookupRec_setRec_self, maxAttempts]
  have e5 : recordAttempt (setRec (setRec (setRec (setRec st0 id ⟨1, t1, none⟩) id
      ⟨2, t1, none⟩) id ⟨3, t1, none⟩) id ⟨4, t1, none⟩) id false t5 =
      setRec (setRec (setRec (setRec (setRec st0 id ⟨1, t1, none⟩) id
        ⟨2, t1, none⟩) id ⟨3, t1, none⟩) id ⟨4, t1, none⟩) id
        ⟨5, t1, some (t5 + lockoutTime)⟩ := by
    simp [recordAttempt, lookupRec_setRec_self, maxAttempts]
  have e15 : recordFails st0 id [t1, t2, t3, t4, t5] =
      setRec (setRec (setRec (setRec (setRec st0 id ⟨1, t1, none⟩) id
        ⟨2, t1, none⟩) id ⟨3, t1, none⟩) id ⟨4, t1, none⟩) id
        ⟨5, t1, some (t5 + lockoutTime)⟩ := by
    simp only [recordFails, e1, e2, e3, e4, e5]
  have hpos : 0 < t5 + lockoutTime := by
    unfold lockoutTime
    omega
  refine ⟨?_, ?_, ?_, ?_⟩
  · rw [e15]
    simp [canAttempt, lookupRec_setRec_self, hpos, h6]
  · rw [e15]
    simp [getAttemptsLeft, lookupRec_setRec_self, maxAttempts]
  · rw [e15]
    have her : recordAttempt (setRec (setRec (setRec (setRec (setRec st0 id
        ⟨1, t1, none⟩) id ⟨2, t1, none⟩) id ⟨3, t1, none⟩) id ⟨4, t1, none⟩) id
        ⟨5, t1, some (t5 + lockoutTime)⟩) id true t7 =
        eraseRec (setRec (setRec (setRec (setRec (setRec st0 id ⟨1, t1, none⟩) id
        ⟨2, t1, none⟩) id ⟨3, t1, none⟩) id ⟨4, t1, none⟩) id
        ⟨5, t1, some (t5 + lockoutTime)⟩) id := by
      simp [recordAttempt]
    rw [her]
    simp [canAttempt, lookupRec_eraseRec_self]
  · rw [e15]
    have her : recordAttempt (setRec (setRec (setRec (setRec (setRec st0 id
        ⟨1, t1, none⟩) id ⟨2, t1, none⟩) id ⟨3, t1, none⟩) id ⟨4, t1, none⟩) id
        ⟨5, t1, some (t5 + lockoutTime)⟩) id true t7 =
        eraseRec (setRec (setRec (setRec (setRec (setRec st0 id ⟨1, t1, none⟩) id
        ⟨2, t1, none⟩) id ⟨3, t1, none⟩) id ⟨4, t1, none⟩) id
        ⟨5, t1, some (t5 + lockoutTime)⟩) id := by
      simp [recordAttempt]
    rw [her]
    simp [getAttemptsLeft, lookupRec_eraseRec_self]

theorem c6_rate_limit_scenario_witness :
    (canAttempt (recordFails [] ("login_store1".data) [0, 0, 0, 0, 0])
        ("login_store1".data) 1).1 = false ∧
    (getAttemptsLeft (recordFails [] ("login_store1".data) [0, 0, 0, 0, 0])
        ("login_store1".data)).1 = 0 ∧
    (canAttempt (recordAttempt (recordFails [] ("login_store1".data) [0, 0, 0, 0, 0])
        ("login_store1".data) true 2) ("login_store1".data) 3).1 = true ∧
    (getAttemptsLeft (recordAttempt (recordFails [] ("login_store1".data) [0, 0, 0, 0, 0])
        ("login_store1".data) true 2) ("login_store1".data)).1 = maxAttempts :=
  c6_rate_limit_scenario [] ("login_store1".data) 0 0 0 0 0 1 2 3 rfl
    (by unfold lockoutTime; omega)

/-- C7: canAttempt, on a record carrying a (truthy) lockedUntil
timestamp, answers false at every time strictly before it, and at or
after it answers true and erases the record as a side effect; with no
record it answers true without touching the state, and on a record
without a lockout it answers `count < maxAttempts` (so false once the
count has reached the maximum) without touching the state. -/
theorem c7_canAttempt_cases (st : RLState) (id : List Char) (now : Nat) :
    (lookupRec st id = none → canAttempt st id now = (true, st)) ∧
    (∀ r lockedAt, lookupRec st id = some r → r.lockedUntil = some lockedAt →
      0 < lockedAt →
      (now < lockedAt → canAttempt st id now = (false, st)) ∧
      (lockedAt ≤ now → canAttempt st id now = (true, eraseRec st id))) ∧
    (∀ r, lookupRec st id = some r → r.lockedUntil = none →
      canAttempt st id now = (decide (r.count < maxAttempts), st)) := by
  refine ⟨?_, ?_, ?_⟩
  · intro h
    simp [canAttempt, h]
  · intro r lockedAt hr hL hpos
    constructor
    · intro hlt
      simp [canAttempt, hr, hL, hpos, hlt]
    · intro hge
      have hnlt : ¬ now < lockedAt := not_lt.mpr hge
      simp [canAttempt, hr, hL, hpos, hge, hnlt]
  · intro r hr hL
    simp [canAttempt, hr, hL]

theorem c7_canAttempt_cases_witness :
    canAttempt [(("a".data), ⟨5, 0, some 10⟩)] ("a".data) 3 =
      (false, [(("a".data), ⟨5, 0, some 10⟩)]) ∧
    canAttempt [(("a".data), ⟨5, 0, some 10⟩)] ("a".data) 10 =
      (true, eraseRec [(("a".data), ⟨5, 0, some 10⟩)] ("a".data)) ∧
    canAttempt [(("a".data), ⟨5, 0, none⟩)] ("a".data) 3 =
      (decide ((5 : Nat) < maxAttempts), [(("a".data), ⟨5, 0, none⟩)]) :=
  ⟨((c7_canAttempt_cases [(("a".data), ⟨5, 0, some 10⟩)] ("a".data) 3).2.1
      ⟨5, 0, some 10⟩ 10 (by decide) rfl (by decide)).1 (by decide),
   ((c7_canAttempt_cases [(("a".data), ⟨5, 0, some 10⟩)] ("a".data) 10).2.1
      ⟨5, 0, some 10⟩ 10 (by decide) rfl (by decide)).2 (by decide),
   (c7_canAttempt_cases [(("a".data), ⟨5, 0, none⟩)] ("a".data) 3).2.2
      ⟨5, 0, none⟩ (by decide) rfl⟩

/-- C8 (counterexample): the fail-open transition into the authenticated
state does NOT persist the store identifier — only the user identifier is
written to local storage on that path. -/
theorem c8_counterexample :
    (authStateHandler ("p".data) (some ("u".data)) VerifierResult.fetchError).mode =
      AuthMode.authenticated ∧
    (authStateHandler ("p".data) (some ("u".data))
        VerifierResult.fetchError).storedProjectId = none :=
  ⟨rfl, rfl⟩

/-- C8 (amended): every transition into the authenticated state persists
the authenticated user's identifier and triggers the payment-setup status
check, but the store identifier is persisted only on the
verifier-confirmed path, not on the fail-open (verifier error) path. -/
theorem c8_authenticated_effects (projectId : List Char)
    (u : Option (List Char)) (vr : VerifierResult)
    (h : (authStateHandler projectId u vr).mode = AuthMode.authenticated) :
    ∃ uid, u = some uid ∧
      (authStateHandler projectId u vr).storedUserId = some uid ∧
      (authStateHandler projectId u vr).stripeChecked = true ∧
      (vr = VerifierResult.ok (some true) →
        (authStateHandler projectId u vr).storedProjectId = some projectId) ∧
      (vr = VerifierResult.fetchError →
        (authStateHandler projectId u vr).storedProjectId = none) := by
  cases u with
  | none => simp [authStateHandler] at h
  | some uid =>
    refine ⟨uid, rfl, ?_⟩
    cases vr with
    | fetchError => simp [authStateHandler]
    | ok d =>
      by_cases hd : d = some true
      · subst hd
        simp [authStateHandler]
      · simp [authStateHandler, hd] at h

theorem c8_authenticated_effects_witness :
    ∃ uid, (some ("u".data) : Option (List Char)) = some uid ∧
      (authStateHandler ("p".data) (some ("u".data))
        VerifierResult.fetchError).storedUserId = some uid ∧
      (authStateHandler ("p".data) (some ("u".data))
        VerifierResult.fetchError).stripeChecked = true ∧
      (VerifierResult.fetchError = VerifierResult.ok (some true) →
        (authStateHandler ("p".data) (some ("u".data))
          VerifierResult.fetchError).storedProjectId = some ("p".data)) ∧
      (VerifierResult.fetchError = VerifierResult.fetchError →
        (authStateHandler ("p".data) (some ("u".data))
          VerifierResult.fetchError).storedProjectId = none) :=
  c8_authenticated_effects ("p".data) (some ("u".data)) VerifierResult.fetchError rfl

/-- C9: during a sign-in attempt that is not rate-limited, if
detectAttack fires on the raw email or the raw password, a failed attempt
is recorded for the identifier, the state stays login (handleLogin never
changes the auth mode) with the generic invalid-input message, and the
credential provider is never invoked on this branch. -/
theorem c9_attack_branch (st : RLState) (projectId email password : List Char)
    (now : Nat) (sir : SignInResult)
    (hcan : (canAttempt st (loginIdentifier projectId) now).1 = true)
    (hatk : detectAttack email = true ∨ detectAttack password = true) :
    (handleLogin st projectId email password now sir).providerCalled = false ∧
    (handleLogin st projectId email password now sir).msg = AuthMsg.invalidInput ∧
    (handleLogin st projectId email password now sir).modeChange = none ∧
    (handleLogin st projectId email password now sir).rl =
      recordAttempt (canAttempt st (loginIdentifier projectId) now).2
        (loginIdentifier projectId) false now := by
  have hor : (detectAttack email || detectAttack password) = true := by
    rcases hatk with h | h <;> simp [h]
  have h1 : handleLogin st projectId email password now sir =
      { rl := recordAttempt (canAttempt st (loginIdentifier projectId) now).2
                (loginIdentifier projectId) false now,
        msg := AuthMsg.invalidInput, isLocked := false, lockoutMinutes := none,
        providerCalled := false, providerEmail := none,
        providerPassword := none, modeChange := none } := by
    unfold handleLogin
    simp [hcan, hor]
  rw [h1]
  exact ⟨rfl, rfl, rfl, rfl⟩

theorem c9_attack_branch_witness :
    (handleLogin [] [] ("<script".data) ("pw".data) 0 SignInResult.success).providerCalled = false ∧
    (handleLogin [] [] ("<script".data) ("pw".data) 0 SignInResult.success).msg =
      AuthMsg.invalidInput ∧
    (handleLogin [] [] ("<script".data) ("pw".data) 0 SignInResult.success).modeChange =
      none ∧
    (handleLogin [] [] ("<script".data) ("pw".data) 0 SignInResult.success).rl =
      recordAttempt (canAttempt [] (loginIdentifier []) 0).2 (loginIdentifier [])
        false 0 :=
  c9_attack_branch [] [] ("<script".data) ("pw".data) 0 SignInResult.success
    (by decide) (Or.inl (by decide))

/-- C10: the observer operations getRemainingTime and getAttemptsLeft
leave the attempts table completely unchanged for every state, identifier
and clock value — even an expired lockout record survives them; only
canAttempt and recordAttempt mutate the table. -/
theorem c10_observers_pure (st : RLState) (id : List Char) (now : Nat) :
    (getRemainingTime st id now).2 = st ∧ (getAttemptsLeft st id).2 = st := by
  constructor
  · unfold getRemainingTime
    split
    · rfl
    · split
      · rfl
      · split <;> rfl
  · unfold getAttemptsLeft
    split <;> rfl

/-- C3 (counterexample): sanitizeText is not idempotent.  Removing the
first `data:` occurrence from `ddata:ata:` splices the surrounding
characters into a fresh `data:`, which survives one pass but not two. -/
theorem c3_counterexample :
    sanitizeText (sanitizeText ("ddata:ata:".data)) ≠
      sanitizeText ("ddata:ata:".data) := by decide

/-- C3 (amended): idempotence holds only in restricted form — sanitizeUrl
is idempotent on every input of length at most its 2000-character
truncation limit, and sanitizePrice is idempotent on every input whose
digit-and-dot residue has at most one dot; the substring-removing
sanitizers are not idempotent in general, because removing an occurrence
can splice a new one. -/
theorem c3_restricted_idempotence (l : List Char) :
    (l.length ≤ 2000 → sanitizeUrl (sanitizeUrl l) = sanitizeUrl l) ∧
    ((l.filter priceChar).count '.' ≤ 1 →
      sanitizePrice (sanitizePrice l) = sanitizePrice l) :=
  ⟨sanitizeUrl_idem_of_short l, sanitizePrice_idem_of_one_dot l⟩

theorem c3_restricted_idempotence_witness :
    sanitizeUrl (sanitizeUrl ("https://example.com/pay".data)) =
      sanitizeUrl ("https://example.com/pay".data) ∧
    sanitizePrice (sanitizePrice ("abc99.9".data)) =
      sanitizePrice ("abc99.9".data) :=
  ⟨(c3_restricted_idempotence ("https://example.com/pay".data)).1 (by decide),
   (c3_restricted_idempotence ("abc99.9".data)).2 (by decide)⟩

/-- C4 (counterexample): sanitizePrice does not truncate every result to
10 characters — the more-than-one-dot branch returns the collapsed string
without truncating, here 14 characters long. -/
theorem c4_counterexample :
    10 < (sanitizePrice ("1.2.34567890123".data)).length := by decide

/-- C4 (amended): sanitizePrice keeps only digits and dots and collapses
everything after the first dot into a single fractional part (the output
always has at most one dot), but the 10-character truncation applies only
when the digit-and-dot residue has at most one dot (the collapse branch
skips it); the two concrete examples of the claim hold. -/
theorem c4_sanitizePrice_shape (l : List Char) :
    (∀ c ∈ sanitizePrice l, priceChar c = true) ∧
    (sanitizePrice l).count '.' ≤ 1 ∧
    ((l.filter priceChar).count '.' ≤ 1 → (sanitizePrice l).length ≤ 10) ∧
    sanitizePrice ("12.34.56".data) = "12.3456".data ∧
    sanitizePrice ("abc99.9".data) = "99.9".data := by
  by_cases he : l.isEmpty = true
  · refine ⟨?_, ?_, ?_, by decide, by decide⟩
    · intro c hc
      rw [sanitizePrice_eq, if_pos he] at hc
      cases hc
    · rw [sanitizePrice_eq, if_pos he]
      simp
    · intro _
      rw [sanitizePrice_eq, if_pos he]
      simp
  · by_cases hm : 2 < (splitDot (l.filter priceChar)).length
    · have hout : sanitizePrice l = (splitDot (l.filter priceChar)).headD [] ++
          '.' :: (splitDot (l.filter priceChar)).tail.flatten := by
        rw [sanitizePrice_eq, if_neg he, if_pos hm]
      cases hp : splitDot (l.filter priceChar) with
      | nil => exact absurd hp (splitDot_ne_nil _)
      | cons p t =>
        rw [hp] at hout
        have hmemP : ∀ c ∈ p, c ∈ l.filter priceChar ∧ (c == '.') = false :=
          fun c hc => splitDot_mem _ p (by rw [hp]; exact List.mem_cons_self _ _) c hc
        have hmemT : ∀ part ∈ t, ∀ c ∈ part,
            c ∈ l.filter priceChar ∧ (c == '.') = false :=
          fun part hpart c hc =>
            splitDot_mem _ part (by rw [hp]; exact List.mem_cons_of_mem _ hpart) c hc
        refine ⟨?_, ?_, ?_, by decide, by decide⟩
        · intro c hc
          rw [hout] at hc
          have hc2 : c ∈ p ++ '.' :: t.flatten := by simpa using hc
          rcases List.mem_append.1 hc2 with h1 | h1
          · exact (List.mem_filter.1 (hmemP c h1).1).2
          · rcases List.mem_cons.1 h1 with h2 | h2
            · subst h2
              decide
            · obtain ⟨part, hpart, hcp⟩ := List.mem_flatten.1 h2
              exact (List.mem_filter.1 (hmemT part hpart c hcp).1).2
        · have hcp : p.count '.' = 0 :=
            List.count_eq_zero.2 (fun hin => by simpa using (hmemP '.' hin).2)
          have hct : t.flatten.count '.' = 0 :=
            List.count_eq_zero.2 (fun hin => by
              obtain ⟨part, hpart, hcp2⟩ := List.mem_flatten.1 hin
              simpa using (hmemT part hpart '.' hcp2).2)
          rw [hout]
          simp [List.count_append, List.count_cons, hcp, hct]
        · intro hcount
          exact absurd hm (by rw [splitDot_length]; omega)
    · have hout : sanitizePrice l = (l.filter priceChar).take 10 := by
        rw [sanitizePrice_eq, if_neg he, if_neg hm]
      refine ⟨?_, ?_, ?_, by decide, by decide⟩
      · intro c hc
        rw [hout] at hc
        exact (List.mem_filter.1 (List.mem_of_mem_take hc)).2
      · rw [hout]
        have h1 := splitDot_length (l.filter priceChar)
        have h2 : (l.filter priceChar).count '.' ≤ 1 := by omega
        exact le_trans ((List.take_sublist _ _).count_le _) h2
      · intro _
        rw [hout]
        exact (l.filter priceChar).length_take_le 10

theorem c4_sanitizePrice_shape_witness :
    (∀ c ∈ sanitizePrice ("abc99.9".data), priceChar c = true) ∧
    (sanitizePrice ("abc99.9".data)).count '.' ≤ 1 ∧
    (sanitizePrice ("abc99.9".data)).length ≤ 10 :=
  ⟨(c4_sanitizePrice_shape ("abc99.9".data)).1,
   (c4_sanitizePrice_shape ("abc99.9".data)).2.1,
   (c4_sanitizePrice_shape ("abc99.9".data)).2.2.1 (by decide)⟩

/-- C5 (counterexample): a string containing `<script>` whose tag is NOT
removed by sanitizeDescription — the block regex requires a closing
`</script>`, so an unclosed tag passes through unchanged. -/
theorem c5_counterexample :
    sanitizeDescription ("<script>".data) = "<script>".data ∧
    infixOf ("<script>".data) (sanitizeDescription ("<script>".data)) = true := by
  decide

/-- C5 (amended): sanitizeDescription removes only complete
`<script>...</script>` blocks and passes an unclosed `<script>` tag
through; however every string containing `<script>` is flagged by
detectAttack, which the callers use to reject the whole submission. -/
theorem c5_script_detected (l : List Char)
    (h : infixOf ("<script>".data) l = true) : detectAttack l = true := by
  have h1 : ("<script>".data) <:+: l := (infixOf_iff_isInfix _ _).1 h
  have h2 : ("<script".data) <:+: l :=
    List.IsInfix.trans (List.IsPrefix.isInfix (by decide)) h1
  have h3 : List.map Char.toLower ("<script".data) <:+: List.map Char.toLower l :=
    h2.map Char.toLower
  have h4 : atkScript l = true := by
    unfold atkScript containsCI lowerL
    exact (infixOf_iff_isInfix _ _).2 h3
  have hne : l.isEmpty = false := by
    cases l with
    | nil => exact absurd h (by decide)
    | cons a r => rfl
  unfold detectAttack
  simp [hne, h4]

theorem c5_script_detected_witness :
    detectAttack ("x<script>alert".data) = true :=
  c5_script_detected ("x<script>alert".data) (by decide)
